import Mathlib

/-!
Verification of cargo-sort-ng (src/main.rs) against its natural-language
specification.  The file shallowly embeds the pure decision logic of
`check_toml` and `_main` from src/main.rs; the `sort` and `fmt` modules
referenced by main.rs are not part of the sources, so the engine they
provide is kept abstract (an `Engine` record) and, where a claim is about
the missing module itself, modelled from the spec (clearly marked).
Text is modelled as a list of characters.
-/

namespace CargoSortNg

/-- Text is a sequence of characters (Rust `String` content). -/
abbrev Text := List Char

/-- double-quote character, `"` -/
def dquote : Char := Char.ofNat 34

/-- single-quote character -/
def squote : Char := Char.ofNat 39

/-- Rust `s.contains("\r\n")`: does the text contain a CRLF pair? -/
def hasCRLF : Text → Bool
  | [] => false
  | [_] => false
  | a :: b :: rest => (a = '\r' && b = '\n') || hasCRLF (b :: rest)

/-- The text contains no carriage return at all (pure-LF convention). -/
def noCR (s : Text) : Bool := s.all (fun c => !(c = '\r'))

/-- Rust `s.replace('\n', "\r\n")`: every LF becomes CRLF. -/
def replaceLFtoCRLF : Text → Text
  | [] => []
  | c :: rest =>
    if c = '\n' then '\r' :: '\n' :: replaceLFtoCRLF rest
    else c :: replaceLFtoCRLF rest

/-- Every newline in the text is a CRLF pair and every CR starts one:
the text is entirely in the CRLF line-ending convention. -/
def crlfOnly : Text → Bool
  | [] => true
  | c :: rest =>
    if c = '\r' then
      match rest with
      | '\n' :: rest2 => crlfOnly rest2
      | _ => false
    else if c = '\n' then false
    else crlfOnly rest

/-- The fields of `fmt::Config` that src/main.rs reads: the optional CRLF
convention and the top-level table order (fmt.rs is not in the sources;
these two fields are the ones main.rs uses). -/
structure Config where
  crlf : Option Bool
  table_order : List String
  deriving DecidableEq

/-- The CLI flags of `struct Cli` in src/main.rs (the `cwd` positional and
`workspace` flag only drive path discovery, which is I/O glue). -/
structure Cli where
  cwd : List String
  check : Bool
  print : Bool
  no_format : Bool
  check_format : Bool
  workspace : Bool
  grouped : Bool
  order : List String
  deriving DecidableEq

/-- Modelled from the spec: `fmt::DEF_CRLF` lives in the missing fmt.rs.
The spec's `crlf` is a tri-state defaulting to auto-detection, so the
fallback constant is taken as LF (`false`).  Inside `check_toml` the
fallback is unreachable anyway: `config.crlf` is always `some _` after
the detection step. -/
def DEF_CRLF : Bool := false

/-- The sort/format engine interface that src/main.rs consumes from its
missing `sort` and `fmt` modules: `sort::sort_toml(raw, MATCHER, grouped,
table_order)`, `fmt::fmt_toml(&mut doc, &config)` (modelled functionally)
and `Document::to_string`. -/
structure Engine (Doc : Type) where
  sort_toml : Text → Bool → List String → Doc
  fmt_toml : Doc → Config → Doc
  to_string : Doc → Text

/-- Lines 119-124 of src/main.rs: detect CRLF in the raw input and, when
`config.crlf` is `None`, record the detected convention. -/
def effectiveConfig (config : Config) (toml_raw : Text) : Config :=
  if config.crlf = none then { config with crlf := some (hasCRLF toml_raw) }
  else config

/-- Line 126 of src/main.rs: `sort::sort_toml(&toml_raw, sort::MATCHER,
cli.grouped, &config.table_order)` on the (crlf-updated) config. -/
def sortedDoc {Doc : Type} (E : Engine Doc) (cli : Cli) (config : Config) (toml_raw : Text) : Doc :=
  E.sort_toml toml_raw cli.grouped (effectiveConfig config toml_raw).table_order

/-- Lines 129-136 of src/main.rs: when `!cli.no_format || cli.check_format`
the document is serialized, formatted and serialized again, yielding the
`origin_already_formatted` verdict and the post-format text; otherwise the
formatter is skipped, the verdict is `true` and the text is the sorted
document's serialization. -/
def fmtStep {Doc : Type} (E : Engine Doc) (cli : Cli) (config : Config) (sorted_doc : Doc) :
    Bool × Text :=
  if !cli.no_format || cli.check_format then
    let before_fmt := E.to_string sorted_doc
    let final_str := E.to_string (E.fmt_toml sorted_doc config)
    (before_fmt == final_str, final_str)
  else
    (true, E.to_string sorted_doc)

/-- The text produced by the formatting step, before the CRLF fix-up. -/
def preCrlfText {Doc : Type} (E : Engine Doc) (cli : Cli) (config : Config) (toml_raw : Text) : Text :=
  (fmtStep E cli (effectiveConfig config toml_raw) (sortedDoc E cli config toml_raw)).2

/-- Lines 138-140 of src/main.rs: when the effective convention is CRLF and
the text contains no CRLF pair yet, every LF is replaced by CRLF. -/
def crlfStep (config : Config) (final_str : Text) : Text :=
  if config.crlf.getD DEF_CRLF && !hasCRLF final_str then replaceLFtoCRLF final_str
  else final_str

/-- The final text held by `check_toml` after the CRLF fix-up. -/
def finalText {Doc : Type} (E : Engine Doc) (cli : Cli) (config : Config) (toml_raw : Text) : Text :=
  crlfStep (effectiveConfig config toml_raw) (preCrlfText E cli config toml_raw)

/-- The four ways `check_toml` returns (src/main.rs lines 142-169): print
the final text and return `Ok(true)`; report the two check-mode verdicts
and return their conjunction; rewrite the file and return `Ok(true)`;
leave the file untouched and return `Ok(true)`. -/
inductive CheckOutcome where
  | printed (text : Text)
  | checked (origin_already_sorted origin_already_formatted : Bool)
  | rewritten (text : Text)
  | unchanged
  deriving DecidableEq

/-- The `Ok` value `check_toml` returns for each outcome. -/
def retVal : CheckOutcome → Bool
  | .printed _ => true
  | .checked s f => s && f
  | .rewritten _ => true
  | .unchanged => true

/-- The content `check_toml` writes to the manifest file, if any
(`std::fs::write` at line 161 of src/main.rs). -/
def fileWrite : CheckOutcome → Option Text
  | .rewritten t => some t
  | _ => none

/-- The decision logic of `check_toml` (src/main.rs lines 107-170), with
path handling and colored terminal messages (pure I/O glue) elided and the
missing sort/fmt modules abstracted as an `Engine`. -/
def check_toml {Doc : Type} (E : Engine Doc) (cli : Cli) (config0 : Config) (toml_raw : Text) :
    CheckOutcome :=
  let origin_already_formatted :=
    (fmtStep E cli (effectiveConfig config0 toml_raw) (sortedDoc E cli config0 toml_raw)).1
  let final_str := finalText E cli config0 toml_raw
  if cli.print then .printed final_str
  else
    let origin_already_sorted := toml_raw == final_str
    if cli.check then .checked origin_already_sorted origin_already_formatted
    else if !origin_already_sorted then .rewritten final_str
    else .unchanged

/-- Lines 239-241 of src/main.rs: a non-empty `--order` flag replaces the
table order loaded from the sidecar config file. -/
def applyOrderFlag (cli : Cli) (config : Config) : Config :=
  if cli.order.isEmpty then config else { config with table_order := cli.order }

/-- One step of the result-collection loop of `_main` (src/main.rs lines
244-253): `Ok(true)` keeps the flag, `Ok(false)` and `Err(_)` clear it. -/
def perDocStep (flag : Bool) (r : Except String Bool) : Bool :=
  match r with
  | .ok true => flag
  | .ok false => false
  | .error _ => false

/-- The flag accumulated over all per-document results. -/
def perDocFlag (results : List (Except String Bool)) : Bool :=
  results.foldl perDocStep true

/-- The aggregate error message of `_main` (src/main.rs line 256). -/
def aggMsg : String := "Some Cargo.toml files are not sorted or formatted"

/-- Lines 243-258 of src/main.rs: map `check_toml` over every discovered
manifest, fold the results into the flag, and fail iff the flag dropped. -/
def runAll {A : Type} (f : A → Except String Bool) (docs : List A) : Except String Unit :=
  if perDocFlag (docs.map f) then .ok () else .error aggMsg

/-- Modelled from the spec: the Sort Engine (sort.rs) is not under src/.
Top-level table ordering per the spec: stable-partition the document's
tables into those whose name appears in `table_order` (ordered per that
list, each occurrence kept independently) followed by those that do not,
in original relative order. -/
def orderTables (table_order tables : List String) : List String :=
  table_order.flatMap (fun n => tables.filter (fun t => t == n))
    ++ tables.filter (fun t => !table_order.contains t)

/-- Quote character chosen for a string value. -/
inductive QuoteStyle where
  | double
  | single
  deriving DecidableEq

/-- A string value together with its surface quote style. -/
structure StrVal where
  quote : QuoteStyle
  content : Text
  deriving DecidableEq

/-- Modelled from the spec: fmt.rs is not under src/.  Canonical quote
character per the spec — prefer one style (double), falling back when the
value requires the other (content contains the preferred quote). -/
def canonQuote (v : StrVal) : StrVal :=
  if v.content.contains dquote then { quote := QuoteStyle.single, content := v.content }
  else { quote := QuoteStyle.double, content := v.content }

/-- A key/value entry with its surface spacing around `=`. -/
structure FmtEntry where
  key : String
  spacesBeforeEq : Nat
  spacesAfterEq : Nat
  value : StrVal
  deriving DecidableEq

/-- Modelled from the spec: canonical spacing around `=` and canonical
quoting for one entry. -/
def fmtEntry (e : FmtEntry) : FmtEntry :=
  { key := e.key, spacesBeforeEq := 1, spacesAfterEq := 1, value := canonQuote e.value }

/-- A document for the modelled Format Engine: entries plus trailing
blank lines. -/
structure FmtDoc where
  entries : List FmtEntry
  trailingBlank : Nat
  deriving DecidableEq

/-- Modelled from the spec: the Format Engine mutates presentation only —
canonical spacing, canonical quoting, trailing-newline normalization. -/
def fmt_doc (d : FmtDoc) : FmtDoc :=
  { entries := d.entries.map fmtEntry, trailingBlank := 0 }

/-- The newline text of the chosen line-ending convention. -/
def newlineOf (crlf : Bool) : Text := if crlf then ['\r', '\n'] else ['\n']

/-- The character of a quote style. -/
def quoteChar : QuoteStyle → Char
  | .double => dquote
  | .single => squote

/-- Render one entry as `key = <quote>content<quote>` plus newline. -/
def renderEntry (nl : Text) (e : FmtEntry) : Text :=
  e.key.data ++ List.replicate e.spacesBeforeEq ' ' ++ ['='] ++ List.replicate e.spacesAfterEq ' '
    ++ [quoteChar e.value.quote] ++ e.value.content ++ [quoteChar e.value.quote] ++ nl

/-- Serialize a modelled document under a line-ending convention. -/
def serializeDoc (crlf : Bool) (d : FmtDoc) : Text :=
  d.entries.flatMap (renderEntry (newlineOf crlf))
    ++ (List.replicate d.trailingBlank (newlineOf crlf)).flatten

/-- Modelled from the spec: `format(Document, Config) -> Document` followed
by serialization — the Format Engine's textual output for a document. -/
def formatText (config : Config) (d : FmtDoc) : Text :=
  serializeDoc (config.crlf.getD DEF_CRLF) (fmt_doc d)

/-- A stand-in engine over plain text, used to instantiate the abstract
`Engine` of check_toml at concrete inputs: sorting leaves the text as is,
formatting drops carriage returns (the modelled Format Engine emits LF;
main.rs applies the convention afterwards) and puts one space around each
`=`. -/
def addSpacesAroundEq : Text → Text
  | [] => []
  | c :: rest =>
    if c = '=' then ' ' :: '=' :: ' ' :: addSpacesAroundEq rest
    else c :: addSpacesAroundEq rest

/-- Concrete engine witness: identity sort, LF-normalizing spacing format. -/
def textEngine : Engine Text :=
  { sort_toml := fun raw _ _ => raw
    fmt_toml := fun d _ => addSpacesAroundEq (d.filter (fun c => c ≠ '\r'))
    to_string := fun d => d }

/-- Concrete engine witness: identity sort, identity format. -/
def idFmtEngine : Engine Text :=
  { sort_toml := fun raw _ _ => raw
    fmt_toml := fun d _ => d
    to_string := fun d => d }

/-- CLI record with every flag off and no arguments. -/
def cliDefault : Cli :=
  { cwd := [], check := false, print := false, no_format := false, check_format := false,
    workspace := false, grouped := false, order := [] }

/-- CLI record for check mode (`--check`). -/
def cliCheckMode : Cli := { cliDefault with check := true }

/-- CLI record for print mode (`--print`). -/
def cliPrintMode : Cli := { cliDefault with print := true }

/-- CLI record for `--no-format` without `--check-format`. -/
def cliNoFormat : Cli := { cliDefault with no_format := true }

/-- A config with an explicit LF convention and empty table order. -/
def cfgPlain : Config := { crlf := some false, table_order := [] }

/-- A config with the CRLF convention left to auto-detection. -/
def cfgAuto : Config := { crlf := none, table_order := [] }

/-- A manifest text that is already sorted but not canonically formatted:
no spaces around the `=`. -/
def rawSortedUnformatted : Text := "a=1\n".data

/-- Helper: a CR-free text contains no CRLF pair. -/
theorem hasCRLF_eq_false_of_noCR (s : Text) (h : noCR s = true) : hasCRLF s = false := by
  induction s with
  | nil => rfl
  | cons a rest ih =>
    cases rest with
    | nil => rfl
    | cons b rest2 =>
      simp only [noCR, List.all_cons, Bool.and_eq_true, Bool.not_eq_true'] at h
      simp only [hasCRLF, Bool.or_eq_false_iff]
      constructor
      · simp [h.1]
      · exact ih (by simp [noCR, List.all_cons, h.2.1, h.2.2])

/-- Helper: replacing every LF of a CR-free text by CRLF yields a text
entirely in the CRLF convention. -/
theorem crlfOnly_replaceLF (s : Text) (h : noCR s = true) :
    crlfOnly (replaceLFtoCRLF s) = true := by
  induction s with
  | nil => rfl
  | cons c rest ih =>
    simp only [noCR, List.all_cons, Bool.and_eq_true, Bool.not_eq_true'] at h
    have hrest := ih (by simp [noCR, h.2])
    by_cases hn : c = '\n'
    · subst hn
      simp [replaceLFtoCRLF, crlfOnly, hrest]
    · have hr : ¬(c = '\r') := of_decide_eq_false h.1
      rw [replaceLFtoCRLF, if_neg hn, crlfOnly.eq_def]
      simp [hn, hr, hrest]

/-- Helper: under an effective CRLF convention the crlf fix-up of a CR-free
text is entirely CRLF. -/
theorem crlfOnly_crlfStep (config : Config) (fin : Text) (hc : config.crlf = some true)
    (h : noCR fin = true) : crlfOnly (crlfStep config fin) = true := by
  unfold crlfStep
  rw [hc]
  simp only [Option.getD_some, hasCRLF_eq_false_of_noCR fin h]
  simpa using crlfOnly_replaceLF fin h

/-- Helper: the per-document fold step keeps a cleared flag cleared. -/
theorem perDocStep_false (r : Except String Bool) : perDocStep false r = false := by
  cases r with
  | ok b => cases b <;> rfl
  | error e => rfl

/-- Helper: the per-document fold never restores a cleared flag. -/
theorem foldl_perDocStep_false (l : List (Except String Bool)) :
    List.foldl perDocStep false l = false := by
  induction l with
  | nil => rfl
  | cons r t ih => simp only [List.foldl_cons, perDocStep_false, ih]

/-- Helper: the aggregate flag survives exactly when every per-document
result is `Ok(true)`. -/
theorem perDocFlag_eq_true_iff (l : List (Except String Bool)) :
    perDocFlag l = true ↔ ∀ r ∈ l, r = .ok true := by
  induction l with
  | nil => simp [perDocFlag]
  | cons r t ih =>
    cases r with
    | ok b =>
      cases b with
      | true =>
        simp only [perDocFlag, List.foldl_cons, perDocStep] at *
        simp [ih]
      | false =>
        simp only [perDocFlag, List.foldl_cons, perDocStep, foldl_perDocStep_false]
        simp
    | error e =>
      simp only [perDocFlag, List.foldl_cons, perDocStep, foldl_perDocStep_false]
      simp

/-- Helper: a filter by a disjunction of disjoint predicates is a
permutation of the two filters concatenated. -/
theorem filter_or_perm {α : Type} (p q : α → Bool) (l : List α)
    (hdisj : ∀ a ∈ l, ¬(p a = true ∧ q a = true)) :
    (l.filter (fun a => p a || q a)).Perm (l.filter p ++ l.filter q) := by
  induction l with
  | nil => simp
  | cons a t ih =>
    have hd : ∀ x ∈ t, ¬(p x = true ∧ q x = true) := fun x hx =>
      hdisj x (List.mem_cons_of_mem a hx)
    have iht := ih hd
    by_cases hp : p a = true
    · have hq : q a = false := by
        rcases Bool.eq_false_or_eq_true (q a) with ht2 | hf
        · exact absurd ⟨hp, ht2⟩ (hdisj a (List.mem_cons_self a t))
        · exact hf
      simpa [List.filter_cons, hp, hq] using iht.cons a
    · have hp' : p a = false := Bool.not_eq_true _ |>.mp hp
      by_cases hq : q a = true
      · simpa [List.filter_cons, hp', hq] using (iht.cons a).trans List.perm_middle.symm
      · have hq' : q a = false := Bool.not_eq_true _ |>.mp hq
        simpa [List.filter_cons, hp', hq'] using iht
/-- Helper: collecting, name by name of a duplicate-free order list, the
tables bearing that name is a permutation of the tables whose name is
listed. -/
theorem flatMap_filter_perm (tord ts : List String) (h : tord.Nodup) :
    (tord.flatMap (fun n => ts.filter (fun t => t == n))).Perm
      (ts.filter (fun t => tord.contains t)) := by
  induction tord with
  | nil => simp
  | cons n to2 ih =>
    have hnd : to2.Nodup := h.of_cons
    have hn : n ∉ to2 := (List.nodup_cons.mp h).1
    have hdisj : ∀ t ∈ ts, ¬((t == n) = true ∧ to2.contains t = true) := by
      intro t _ ⟨h1, h2⟩
      have : t = n := by simpa using h1
      subst this
      exact hn (by simpa using h2)
    have step := filter_or_perm (fun t => t == n) (fun t => to2.contains t) ts hdisj
    have lhs : ((n :: to2).flatMap (fun m => ts.filter (fun t => t == m)))
        = ts.filter (fun t => t == n) ++ to2.flatMap (fun m => ts.filter (fun t => t == m)) := by
      simp [List.flatMap_cons]
    rw [lhs]
    have rhs : ts.filter (fun t => (n :: to2).contains t)
        = ts.filter (fun t => t == n || to2.contains t) := by
      apply List.filter_congr
      intro t _
      by_cases h2 : t = n <;> simp [List.contains_cons, h2]
    rw [rhs]
    exact ((ih hnd).append_left (ts.filter (fun t => t == n))).trans step.symm

/-- Helper: for a duplicate-free table order, the modelled top-level table
ordering permutes the tables. -/
theorem orderTables_perm (tord ts : List String) (h : tord.Nodup) :
    (orderTables tord ts).Perm ts := by
  unfold orderTables
  have h1 := (flatMap_filter_perm tord ts h).append_right (ts.filter (fun t => !tord.contains t))
  exact h1.trans (List.filter_append_perm (fun t => tord.contains t) ts)

/-- Helper: quote canonicalization is idempotent. -/
theorem canonQuote_canonQuote (v : StrVal) : canonQuote (canonQuote v) = canonQuote v := by
  by_cases h : dquote ∈ v.content
  · simp [canonQuote, h]
  · simp [canonQuote, h]

/-- Helper: entry formatting is idempotent. -/
theorem fmtEntry_fmtEntry (e : FmtEntry) : fmtEntry (fmtEntry e) = fmtEntry e := by
  simp [fmtEntry, canonQuote_canonQuote]

/-- Helper: the modelled Format Engine is idempotent on documents. -/
theorem fmt_doc_fmt_doc (d : FmtDoc) : fmt_doc (fmt_doc d) = fmt_doc d := by
  simp [fmt_doc, List.map_map, Function.comp, fmtEntry_fmtEntry]

/-- A manifest text in the CRLF line-ending convention. -/
def rawCRLF : Text := "b=2\r\na=1\r\n".data

/-- A per-document runner where document 0 succeeds and document 1 fails. -/
def f01 : Nat → Except String Bool := fun n => if n = 0 then .ok true else .error "boom"

/-- CLI record carrying an explicit `--order package` flag. -/
def cliWithOrder : Cli := { cliDefault with order := ["package"] }

/-- A sidecar config carrying its own table order. -/
def cfgSidecar : Config := { crlf := none, table_order := ["dependencies"] }

/-- C1: evaluation at the failing input.  The claim says `already_sorted`
compares the original text against the sorted-but-not-yet-formatted
serialization, so a sorted-but-unformatted document yields
`already_sorted = true, already_formatted = false`.  The code instead
compares against the post-format text (line 147 of src/main.rs): on the
input `a=1\n` — whose sorted serialization equals the input, while
formatting changes it — check mode reports `already_sorted = false`,
contradicting the claim and the program's own EXTRA_HELP note. -/
theorem c1_sorted_unformatted_eval :
    textEngine.to_string (sortedDoc textEngine cliCheckMode cfgPlain rawSortedUnformatted)
        = rawSortedUnformatted
    ∧ preCrlfText textEngine cliCheckMode cfgPlain rawSortedUnformatted ≠ rawSortedUnformatted
    ∧ check_toml textEngine cliCheckMode cfgPlain rawSortedUnformatted
        = CheckOutcome.checked false false := by
  refine ⟨by decide, by decide, by decide⟩

/-- C2: in a multi-document run every document is attempted — the result
list is the pointwise image of the document list, so each verdict depends
only on its own document — and the aggregate run returns the error outcome
exactly when at least one document failed (`Ok(false)`) or errored. -/
theorem c2_member_isolation_aggregate {A : Type} (f : A → Except String Bool) (docs : List A) :
    ((docs.map f).length = docs.length ∧ ∀ i : Nat, (docs.map f)[i]? = Option.map f docs[i]?)
    ∧ (runAll f docs = Except.error aggMsg ↔ ∃ d ∈ docs, f d ≠ Except.ok true)
    ∧ (runAll f docs = Except.ok () ↔ ∀ d ∈ docs, f d = Except.ok true) := by
  have hflag : perDocFlag (docs.map f) = true ↔ ∀ d ∈ docs, f d = Except.ok true := by
    rw [perDocFlag_eq_true_iff]
    constructor
    · intro h d hd
      exact h (f d) (List.mem_map_of_mem f hd)
    · intro h r hr
      rcases List.mem_map.mp hr with ⟨d, hd, rfl⟩
      exact h d hd
  refine ⟨⟨by simp, fun i => List.getElem?_map f docs i⟩, ?_, ?_⟩
  · unfold runAll
    by_cases h : perDocFlag (docs.map f) = true
    · rw [if_pos h]
      constructor
      · intro he
        simp at he
      · intro ⟨d, hd, hne⟩
        exact absurd (hflag.mp h d hd) hne
    · rw [if_neg h]
      constructor
      · intro _
        have h2 := (not_iff_not.mpr hflag).mp h
        push_neg at h2
        exact h2
      · intro _
        rfl
  · unfold runAll
    by_cases h : perDocFlag (docs.map f) = true
    · rw [if_pos h]
      exact ⟨fun _ => hflag.mp h, fun _ => rfl⟩
    · rw [if_neg h]
      constructor
      · intro he
        simp at he
      · intro hall
        exact absurd (hflag.mpr hall) h

/-- Witness: a run over one passing and one failing document errors. -/
theorem c2_witness : runAll f01 [0, 1] = Except.error aggMsg :=
  (c2_member_isolation_aggregate f01 [0, 1]).2.1.mpr ⟨1, by decide, by simp [f01]⟩

/-- C3: when `Config.crlf` is unset the convention is detected from the
original input (a `\r\n` pair present means CRLF), and a CRLF input then
yields output entirely in CRLF (given the formatter emits carriage-return
free text); when `Config.crlf` is set explicitly that convention is forced
regardless of the input: `some true` converts the output to CRLF, and
`some false` leaves the formatter's LF text unchanged. -/
theorem c3_crlf_detection_forcing {Doc : Type} (E : Engine Doc) (cli : Cli) (config : Config)
    (raw : Text) :
    (config.crlf = none → (effectiveConfig config raw).crlf = some (hasCRLF raw))
    ∧ (∀ b : Bool, config.crlf = some b → (effectiveConfig config raw).crlf = some b)
    ∧ (config.crlf = none → hasCRLF raw = true → noCR (preCrlfText E cli config raw) = true →
        crlfOnly (finalText E cli config raw) = true)
    ∧ (config.crlf = some true → noCR (preCrlfText E cli config raw) = true →
        crlfOnly (finalText E cli config raw) = true)
    ∧ (config.crlf = some false → finalText E cli config raw = preCrlfText E cli config raw) := by
  have heffn : config.crlf = none → (effectiveConfig config raw).crlf = some (hasCRLF raw) := by
    intro h
    simp [effectiveConfig, h]
  have heffs : ∀ b : Bool, config.crlf = some b → (effectiveConfig config raw).crlf = some b := by
    intro b h
    simp [effectiveConfig, h]
  refine ⟨heffn, heffs, ?_, ?_, ?_⟩
  · intro hnone hraw hpre
    unfold finalText
    apply crlfOnly_crlfStep
    · rw [heffn hnone, hraw]
    · exact hpre
  · intro hsome hpre
    unfold finalText
    exact crlfOnly_crlfStep _ _ (heffs true hsome) hpre
  · intro hsome
    unfold finalText crlfStep
    rw [heffs false hsome]
    simp

/-- Witness: CRLF input with `crlf` unset yields all-CRLF output. -/
theorem c3_witness :
    crlfOnly (finalText textEngine cliDefault cfgAuto rawCRLF) = true :=
  (c3_crlf_detection_forcing textEngine cliDefault cfgAuto rawCRLF).2.2.1 rfl (by decide) (by decide)

/-- C4: whenever formatting is applied, the `already_formatted` verdict
reported by check mode equals the string equality of the serialization of
the sorted-but-unformatted document with the serialization produced after
the Format Engine runs on it (lines 129-133 of src/main.rs). -/
theorem c4_already_formatted_oracle {Doc : Type} (E : Engine Doc) (cli : Cli) (config : Config)
    (raw : Text) (hp : cli.print = false) (hc : cli.check = true)
    (hf : (!cli.no_format || cli.check_format) = true) :
    check_toml E cli config raw
      = CheckOutcome.checked (raw == finalText E cli config raw)
          (E.to_string (sortedDoc E cli config raw)
            == E.to_string (E.fmt_toml (sortedDoc E cli config raw) (effectiveConfig config raw))) := by
  simp [check_toml, hp, hc, fmtStep, hf]

/-- Witness: the check-mode verdict at a concrete CRLF input. -/
theorem c4_witness :
    check_toml textEngine cliCheckMode cfgPlain rawCRLF
      = CheckOutcome.checked (rawCRLF == finalText textEngine cliCheckMode cfgPlain rawCRLF)
          (textEngine.to_string (sortedDoc textEngine cliCheckMode cfgPlain rawCRLF)
            == textEngine.to_string
                (textEngine.fmt_toml (sortedDoc textEngine cliCheckMode cfgPlain rawCRLF)
                  (effectiveConfig cfgPlain rawCRLF))) :=
  c4_already_formatted_oracle textEngine cliCheckMode cfgPlain rawCRLF rfl rfl rfl

/-- C5: when the check flag is set, `check_toml` performs no file
mutation — it returns a `checked` verdict (or prints), never the
`rewritten` outcome that writes the manifest, whatever the verdicts. -/
theorem c5_check_mode_no_write {Doc : Type} (E : Engine Doc) (cli : Cli) (config : Config)
    (raw : Text) (hc : cli.check = true) :
    fileWrite (check_toml E cli config raw) = none := by
  unfold check_toml
  by_cases hp : cli.print = true
  · simp [hp, fileWrite]
  · simp only [Bool.not_eq_true] at hp
    simp [hp, hc, fileWrite]

/-- Witness: a concrete check-mode run writes nothing. -/
theorem c5_witness :
    fileWrite (check_toml textEngine cliCheckMode cfgPlain rawSortedUnformatted) = none :=
  c5_check_mode_no_write textEngine cliCheckMode cfgPlain rawSortedUnformatted rfl

/-- C6: a non-empty explicit `--order` flag overrides the `table_order`
loaded from the sidecar config file; with the flag absent (empty), the
sidecar config's table order is used (lines 239-241 of src/main.rs). -/
theorem c6_order_flag_overrides (cli : Cli) (config : Config) :
    (cli.order ≠ [] → (applyOrderFlag cli config).table_order = cli.order)
    ∧ (cli.order = [] → (applyOrderFlag cli config).table_order = config.table_order) := by
  constructor
  · intro h
    simp [applyOrderFlag, h]
  · intro h
    simp [applyOrderFlag, h]

/-- Witness: an explicit order flag wins over the sidecar config. -/
theorem c6_witness :
    (applyOrderFlag cliWithOrder cfgSidecar).table_order = ["package"] :=
  (c6_order_flag_overrides cliWithOrder cfgSidecar).1 (by decide)

/-- C7: top-level table ordering is a stable partition — the result is the
tables named in `table_order`, grouped per that list, followed by the
remaining tables in original relative order (the `take`/`drop` equations),
it permutes the tables (for a duplicate-free order list), and on
`table_order = [package, dependencies]` with input
`[dev-dependencies, dependencies, package]` the output is
`[package, dependencies, dev-dependencies]`. -/
theorem c7_table_order_partition :
    (orderTables ["package", "dependencies"] ["dev-dependencies", "dependencies", "package"]
      = ["package", "dependencies", "dev-dependencies"])
    ∧ (∀ tord ts : List String, tord.Nodup → (orderTables tord ts).Perm ts)
    ∧ (∀ tord ts : List String,
        (orderTables tord ts).take (tord.flatMap (fun n => ts.filter (fun t => t == n))).length
          = tord.flatMap (fun n => ts.filter (fun t => t == n)))
    ∧ (∀ tord ts : List String,
        (orderTables tord ts).drop (tord.flatMap (fun n => ts.filter (fun t => t == n))).length
          = ts.filter (fun t => !tord.contains t)) := by
  refine ⟨by decide, orderTables_perm, ?_, ?_⟩
  · intro tord ts
    unfold orderTables
    exact List.take_left _ _
  · intro tord ts
    unfold orderTables
    exact List.drop_left _ _

/-- Witness: the partition permutes a concrete table list. -/
theorem c7_witness :
    (orderTables ["a"] ["b", "a"]).Perm ["b", "a"] :=
  c7_table_order_partition.2.1 ["a"] ["b", "a"] (by decide)

/-- C8: the Format Engine is idempotent — applying it to its own output
yields text identical to applying it once, for every document and every
Config. -/
theorem c8_format_idempotent (config : Config) (d : FmtDoc) :
    formatText config (fmt_doc d) = formatText config d := by
  unfold formatText
  rw [fmt_doc_fmt_doc]

/-- C9: formatting is applied iff `no_format` is false or `check_format`
is true.  With `no_format` and no `check_format` the Format Engine is
never invoked (the outcome is independent of the engine's formatter) and
`already_formatted` is unconditionally `true`; with `check_format` the
formatter runs and its changes appear in the final text even though
`no_format` was requested. -/
theorem c9_format_gate {Doc : Type} (E : Engine Doc) (cli : Cli) (config : Config) (d : Doc)
    (raw : Text) :
    (cli.no_format = true → cli.check_format = false →
      fmtStep E cli config d = (true, E.to_string d))
    ∧ (cli.check_format = true →
      fmtStep E cli config d
        = (E.to_string d == E.to_string (E.fmt_toml d config), E.to_string (E.fmt_toml d config)))
    ∧ (∀ E2 : Engine Doc, E2.sort_toml = E.sort_toml → E2.to_string = E.to_string →
        cli.no_format = true → cli.check_format = false →
        check_toml E cli config raw = check_toml E2 cli config raw) := by
  refine ⟨?_, ?_, ?_⟩
  · intro h1 h2
    simp [fmtStep, h1, h2]
  · intro h
    simp [fmtStep, h]
  · intro E2 hs ht h1 h2
    simp [check_toml, finalText, preCrlfText, sortedDoc, fmtStep, h1, h2, hs, ht]

/-- Witness: skipping and forcing the formatter at concrete inputs. -/
theorem c9_witness :
    fmtStep textEngine cliNoFormat cfgPlain rawSortedUnformatted
      = (true, textEngine.to_string rawSortedUnformatted)
    ∧ check_toml textEngine cliNoFormat cfgPlain rawSortedUnformatted
      = check_toml idFmtEngine cliNoFormat cfgPlain rawSortedUnformatted :=
  ⟨(c9_format_gate textEngine cliNoFormat cfgPlain rawSortedUnformatted rawSortedUnformatted).1
      rfl rfl,
   (c9_format_gate textEngine cliNoFormat cfgPlain rawSortedUnformatted rawSortedUnformatted).2.2
      idFmtEngine rfl rfl rfl rfl⟩

/-- C10: with the print flag set, `check_toml` prints the final text and
returns success (`Ok(true)`) for every readable input, regardless of the
sorted/formatted verdicts, so a print-mode run never contributes a failure
to the aggregate outcome. -/
theorem c10_print_mode_ok {Doc : Type} (E : Engine Doc) (cli : Cli) (config : Config) (raw : Text)
    (hp : cli.print = true) :
    check_toml E cli config raw = CheckOutcome.printed (finalText E cli config raw)
    ∧ retVal (check_toml E cli config raw) = true := by
  constructor
  · simp [check_toml, hp]
  · simp [check_toml, hp, retVal]

/-- Witness: a concrete print-mode run prints and succeeds. -/
theorem c10_witness :
    check_toml textEngine cliPrintMode cfgPlain rawSortedUnformatted
      = CheckOutcome.printed (finalText textEngine cliPrintMode cfgPlain rawSortedUnformatted)
    ∧ retVal (check_toml textEngine cliPrintMode cfgPlain rawSortedUnformatted) = true :=
  c10_print_mode_ok textEngine cliPrintMode cfgPlain rawSortedUnformatted rfl

end CargoSortNg
